import Mathlib

/-!
Formal model of `src/model/order_model.py` (Sweet_store_backend).

The module is a thin data-access layer over one MongoDB collection of order
documents.  We embed it shallowly:

* Python/BSON values are `Value` (numbers as `ℚ`, standing for Python floats);
* a document is an insertion-ordered association list `Doc`;
* the collection is a `Store := List Doc`; the module-level
  `order_collection`, which may be `None`, is an `Option Store` parameter;
* `datetime.now()` is an explicit `DateTime` parameter, and the `ObjectId`
  generated by `insert_one` is an explicit fresh-id parameter;
* functions that can raise return `Except String _`; the store-unavailable
  `RuntimeError` messages are carried verbatim.

Unmodelled edges (the Python code would raise an uncaught `TypeError` /
`AttributeError` there, and no spec claim touches them): an `items` field that
is truthy but not a list, non-mapping entries inside an `items` list during
iteration in `place_order` / `get_daily_summary`, and unhashable sweet names.
-/

/-- A wall-clock instant, as far as the module observes one via
`datetime.now()` and `strftime`. -/
structure DateTime where
  year : Nat
  month : Nat
  day : Nat
  hour : Nat
  minute : Nat
  second : Nat
  deriving DecidableEq

/-- Zero-padded decimal rendering, as `strftime` field formatting does. -/
def padNat (width n : Nat) : String :=
  let s := toString n
  if s.length < width then String.mk (List.replicate (width - s.length) '0') ++ s
  else s

/-- `now.strftime("%Y-%m-%d")`. -/
def DateTime.dateStr (t : DateTime) : String :=
  padNat 4 t.year ++ "-" ++ padNat 2 t.month ++ "-" ++ padNat 2 t.day

/-- `dt.strftime("%Y-%m-%d %H:%M:%S")`. -/
def DateTime.fullStr (t : DateTime) : String :=
  t.dateStr ++ " " ++ padNat 2 t.hour ++ ":" ++ padNat 2 t.minute ++ ":" ++ padNat 2 t.second

/-- Mixed-radix key used only to model MongoDB's ordering on `createdAt`
values when sorting (each factor exceeds the field's calendar range). -/
def DateTime.key (t : DateTime) : Nat :=
  ((((t.year * 13 + t.month) * 32 + t.day) * 25 + t.hour) * 61 + t.minute) * 61 + t.second

/-- Python/BSON values occurring in order documents.  `vNum` stands for
Python floats (modelled exactly, as rationals); `vOid` is a BSON `ObjectId`,
carried as its 24-hex-character canonical string. -/
inductive Value where
  | vNone
  | vStr (s : String)
  | vNum (q : ℚ)
  | vDT (t : DateTime)
  | vOid (hex : String)
  | vList (xs : List Value)
  | vDoc (fields : List (String × Value))

/-- A Python dict / BSON document: insertion-ordered key-value pairs. -/
abbrev Doc := List (String × Value)

/-- A MongoDB collection's contents, in natural (insertion) order. -/
abbrev Store := List Doc

/-- `doc.get(k)`: the value at the first (in a dict: only) binding of `k`. -/
def docGet : Doc → String → Option Value
  | [], _ => none
  | kv :: rest, k => if kv.1 == k then some kv.2 else docGet rest k

/-- `k in doc`. -/
def docHasKey : Doc → String → Bool
  | [], _ => false
  | kv :: rest, k => kv.1 == k || docHasKey rest k

/-- `doc[k] = v`: overwrite in place if the key exists (keeping its
position, as Python dicts do — a dict never binds a key twice, so updating
the first binding is exact), otherwise append. -/
def docSet : Doc → String → Value → Doc
  | [], k, v => [(k, v)]
  | kv :: rest, k, v => if kv.1 == k then (k, v) :: rest else kv :: docSet rest k v

/-- Apply a `$set` payload (or a sequence of dict assignments) left to right. -/
def docSetMany (d : Doc) (p : Doc) : Doc :=
  p.foldl (fun acc kv => docSet acc kv.1 kv.2) d

/-- Python truthiness of a value, as used in `v or 0` and `if not doc`. -/
def truthy : Value → Bool
  | .vNone => false
  | .vStr s => !s.isEmpty
  | .vNum q => q != 0
  | .vDT _ => true
  | .vOid _ => true
  | .vList xs => !xs.isEmpty
  | .vDoc d => !d.isEmpty

/-- Decimal digit to number. -/
def digitVal (c : Char) : Nat := c.toNat - 48

/-- Value of a digit string read in base 10. -/
def natOfDigits (cs : List Char) : Nat :=
  cs.foldl (fun a c => a * 10 + digitVal c) 0

/-- Whitespace for the leading/trailing strip `float()` performs. -/
def isPyWS (c : Char) : Bool :=
  c == ' ' || c == '\t' || c == '\n' || c == '\r'

/-- Python `float(s)` on a string: optional surrounding whitespace, optional
sign, decimal digits with an optional single point (exponents and the
`inf`/`nan` spellings are not modelled; no claim uses them).  `none` means
`float` raises `ValueError`. -/
def parseFloat? (s : String) : Option ℚ :=
  let cs := ((s.toList.dropWhile isPyWS).reverse.dropWhile isPyWS).reverse
  let sgn : ℚ := match cs with
    | '-' :: _ => -1
    | _ => 1
  let cs := match cs with
    | '-' :: r => r
    | '+' :: r => r
    | r => r
  let ip := cs.takeWhile Char.isDigit
  let rest := cs.dropWhile Char.isDigit
  match rest with
  | [] => if ip.isEmpty then none else some (sgn * (natOfDigits ip : ℚ))
  | '.' :: fp =>
    if fp.all Char.isDigit && !(ip.isEmpty && fp.isEmpty) then
      some (sgn * ((natOfDigits ip : ℚ) + (natOfDigits fp : ℚ) / (10 : ℚ) ^ fp.length))
    else none
  | _ => none

/-- Python `float(v)` on a value; `none` means it raises
(`ValueError` for a bad string, `TypeError` otherwise). -/
def pyFloat : Value → Option ℚ
  | .vNum q => some q
  | .vStr s => parseFloat? s
  | _ => none

/-- The module's coercion idiom
`try: float(v or 0) except (ValueError, TypeError): 0`:
falsy values become `0.0` via `float(0)`, otherwise a failed conversion is
caught and replaced by `0`.  Never raises. -/
def coerceFloat (v : Value) : Value :=
  if truthy v then
    match pyFloat v with
    | some q => .vNum q
    | none => .vNum 0
  else .vNum 0

/-- The same idiom when a plain number is wanted
(`total_revenue` / quantities / prices in `get_daily_summary`; there the
failure case does `continue` or `quantity_ordered = 0`, which both contribute
`0` to every aggregate). -/
def coerceQ : Option Value → ℚ
  | none => 0
  | some v => if truthy v then (pyFloat v).getD 0 else 0

/-- One pass of `if k in item: item[k] = float(item.get(k, 0) or 0)`
with the `except` arm setting `0`: coerce the field only when present. -/
def coerceField (d : Doc) (k : String) : Doc :=
  match docGet d k with
  | some v => docSet d k (coerceFloat v)
  | none => d

/-- The per-item body of `place_order`'s loop (and of the item
normalisation in `edit_order`): `quantity` then `price`, each coerced
independently and only when present.  Non-dict items are returned unchanged
(`place_order`'s loop body would raise on them; see the module comment). -/
def coerceItem : Value → Value
  | .vDoc f => .vDoc (coerceField (coerceField f "quantity") "price")
  | v => v

/-- `order["orderDate"] = now.strftime("%Y-%m-%d"); order["createdAt"] = now`.
(The source's `deliveryDate` branch rewrites the field to itself and is a
no-op.) -/
def stampDates (now : DateTime) (order : Doc) : Doc :=
  docSet (docSet order "orderDate" (.vStr now.dateStr)) "createdAt" (.vDT now)

/-- The item-list coercion of `place_order`: rewrite `items` elementwise
only when it is a list. -/
def coerceItemsField (o : Doc) : Doc :=
  match docGet o "items" with
  | some (.vList xs) => docSet o "items" (.vList (xs.map coerceItem))
  | _ => o

/-- `insert_one` adds a fresh `ObjectId` under `_id` when the document has
none. -/
def addIdIfMissing (newId : String) (o : Doc) : Doc :=
  if docHasKey o "_id" then o else docSet o "_id" (.vOid newId)

/-- The document `place_order` hands to `insert_one`: stamps `orderDate`
(creation day) and `createdAt`, coerces `total` only when present
(`coerceField _ "total"` is the source's guarded
`if "total" in order: order["total"] = float(order.get("total", 0) or 0)`),
coerces `quantity`/`price` inside each item of a list-valued `items`, and
lets the driver add a fresh `_id` when the document has none. -/
def preparedOrder (now : DateTime) (newId : String) (order : Doc) : Doc :=
  addIdIfMissing newId (coerceItemsField (coerceField (stampDates now order) "total"))

/-- `place_order(order)`.  `coll` is the module-level `order_collection`
(`none` = database not connected); `now` is `datetime.now()`; `newId` the
`ObjectId` the driver would generate.  Returns the new collection contents. -/
def place_order (coll : Option Store) (now : DateTime) (newId : String)
    (order : Doc) : Except String Store :=
  match coll with
  | none => .error "Database not connected: cannot place order"
  | some docs => .ok (docs ++ [preparedOrder now newId order])

/-- `str(v)` as used by `_serialize_order` on `_id` values (in the data
model always an `ObjectId`, whose `str` is its 24-hex string; the other
scalar renderings are included for totality, container reprs are not
modelled). -/
def strOfValue : Value → String
  | .vOid h => h
  | .vStr s => s
  | .vNum q => toString q
  | .vDT t => t.fullStr
  | .vNone => "None"
  | .vList _ => ""
  | .vDoc _ => ""

/-- One `if isinstance(doc.get(k), datetime): doc[k] = … .strftime(...)`
step of `_serialize_datetimes`. -/
def renderDTField (d : Doc) (k : String) : Doc :=
  match docGet d k with
  | some (.vDT t) => docSet d k (.vStr t.fullStr)
  | _ => d

/-- `_serialize_datetimes(doc)`: render datetime-typed `createdAt` /
`updatedAt` as `"%Y-%m-%d %H:%M:%S"` strings; everything else untouched.
(The source's leading `if not doc: return doc` is the identity on the empty
dict, which is what this definition computes there too.) -/
def serialize_datetimes (d : Doc) : Doc :=
  renderDTField (renderDTField d "createdAt") "updatedAt"

/-- `_serialize_order(doc)`: `None` for a falsy (empty) document, else a
copy with `_id` stringified when present and not `None`, and datetimes
rendered. -/
def serialize_order (d : Doc) : Option Doc :=
  if d.isEmpty then none
  else
    let d := match docGet d "_id" with
      | some .vNone => d
      | some v => docSet d "_id" (.vStr (strOfValue v))
      | none => d
    some (serialize_datetimes d)

/-- Sort key MongoDB uses for `.sort("createdAt", -1)`; documents without a
datetime `createdAt` are ordered by a single bucket below all datetimes
(type bracketing, collapsed: no claim distinguishes inside that bucket). -/
def createdKey (d : Doc) : Nat :=
  match docGet d "createdAt" with
  | some (.vDT t) => t.key + 1
  | _ => 0

/-- `.sort("createdAt", -1)`: descending sort.  A stable sort is used; the
database leaves tie order unspecified, and no claim depends on it. -/
def sortByCreatedDesc (docs : Store) : Store :=
  List.insertionSort (fun a b => createdKey b ≤ createdKey a) docs

/-- `get_orders()`. -/
def get_orders (coll : Option Store) : List (Option Doc) :=
  match coll with
  | none => []
  | some docs => (sortByCreatedDesc docs).map serialize_order

/-- Does the document match the filter `{"orderDate": today}`?  BSON
equality of the field with a string value. -/
def matchesOrderDate (today : String) (d : Doc) : Bool :=
  match docGet d "orderDate" with
  | some (.vStr s) => s == today
  | _ => false

/-- The projection `{"_id": 0}`. -/
def dropId (d : Doc) : Doc :=
  d.filter (fun kv => kv.1 != "_id")

/-- `order_collection.find({"orderDate": today}, {"_id": 0}).sort("createdAt", -1)`. -/
def todayOrders (docs : Store) (today : String) : List Doc :=
  (sortByCreatedDesc (docs.filter (matchesOrderDate today))).map dropId

/-- One `{"name":…, "quantity":…, "revenue":…}` entry of `sweet_stats`. -/
structure SweetStat where
  name : Value
  quantity : ℚ
  revenue : ℚ

/-- Python `==` on dict keys, for the scalar values a sweet name can be
(container-valued names are unhashable and would raise; not modelled). -/
def scalarEq : Value → Value → Bool
  | .vNone, .vNone => true
  | .vStr a, .vStr b => a == b
  | .vNum a, .vNum b => a == b
  | .vDT a, .vDT b => a == b
  | .vOid a, .vOid b => a == b
  | _, _ => false

/-- `item.get("sweetName") or item.get("name") or "Unknown"`. -/
def sweetNameOf (it : Doc) : Value :=
  let v1 := (docGet it "sweetName").getD .vNone
  if truthy v1 then v1 else
    let v2 := (docGet it "name").getD .vNone
    if truthy v2 then v2 else .vStr "Unknown"

/-- The `sweet_stats` update for one item: create the entry at first sight
(at the end, as dict insertion order does), then add the item's quantity and
`quantity * price` revenue. -/
def bumpStat (stats : List SweetStat) (nm : Value) (q p : ℚ) : List SweetStat :=
  if stats.any (fun st => scalarEq st.name nm) then
    stats.map (fun st =>
      if scalarEq st.name nm then
        { st with quantity := st.quantity + q, revenue := st.revenue + q * p }
      else st)
  else stats ++ [{ name := nm, quantity := q, revenue := q * p }]

/-- `order.get("items", []) or []`, restricted to the list case (a truthy
non-list `items` makes the Python loop raise; see the module comment). -/
def itemsOf (d : Doc) : List Value :=
  match docGet d "items" with
  | some (.vList xs) => xs
  | _ => []

/-- The fields of one item (non-mapping items make Python's `item.get`
raise; see the module comment). -/
def itemFields : Value → Doc
  | .vDoc f => f
  | _ => []

/-- The item double loop of `get_daily_summary`: accumulates
`total_items_sold` and `sweet_stats` over today's orders. -/
def dailyItemsFold (orders : List Doc) : ℚ × List SweetStat :=
  orders.foldl (fun acc d =>
    (itemsOf d).foldl (fun acc2 itv =>
      let it := itemFields itv
      let q := coerceQ (docGet it "quantity")
      let nm := sweetNameOf it
      let p := coerceQ (docGet it "price")
      (acc2.1 + q, bumpStat acc2.2 nm q p)) acc) (0, [])

/-- One order's contribution to `total_revenue`
(`float(order.get("total", 0) or 0)` with failures skipped — both the
skip and the falsy branch contribute `0`). -/
def revenueOf (d : Doc) : ℚ :=
  coerceQ (docGet d "total")

/-- The summary dict returned by `get_daily_summary`. -/
structure Summary where
  total_orders : Nat
  total_revenue : ℚ
  total_items_sold : ℚ
  popular_sweets : List SweetStat
  orders : List (Option Doc)

/-- The degraded summary returned when the handle is absent. -/
def emptySummary : Summary :=
  { total_orders := 0, total_revenue := 0, total_items_sold := 0,
    popular_sweets := [], orders := [] }

/-- `sorted(sweet_stats.values(), key=lambda x: x["quantity"], reverse=True)`:
stable descending sort on quantity (insertion sort computes the same list as
Python's stable sort). -/
def sortStatsDesc (stats : List SweetStat) : List SweetStat :=
  List.insertionSort (fun a b => b.quantity ≤ a.quantity) stats

/-- `get_daily_summary()`. -/
def get_daily_summary (coll : Option Store) (now : DateTime) : Summary :=
  match coll with
  | none => emptySummary
  | some docs =>
    let tod := todayOrders docs now.dateStr
    let sold_stats := dailyItemsFold tod
    { total_orders := tod.length
      total_revenue := (tod.map revenueOf).sum
      total_items_sold := sold_stats.1
      popular_sweets := (sortStatsDesc sold_stats.2).take 5
      orders := tod.map serialize_order }

/-- Is the character a hexadecimal digit? -/
def isHexChar (c : Char) : Bool :=
  c.isDigit || ('a' ≤ c && c ≤ 'f') || ('A' ≤ c && c ≤ 'F')

/-- `ObjectId(s)` on a string: valid iff 24 hexadecimal characters
(`bson.ObjectId`'s string form); canonicalised to lower case, which is what
`str(ObjectId(s))` yields.  `none` means the constructor raises, which both
callers catch and turn into \x22not found\x22. -/
def objectId? (s : String) : Option String :=
  if s.length == 24 && s.toList.all isHexChar then
    some (String.mk (s.toList.map Char.toLower))
  else none

/-- Does the document match the filter `{"_id": oid}`? -/
def matchesId (oid : String) (d : Doc) : Bool :=
  match docGet d "_id" with
  | some (.vOid h) => h == oid
  | _ => false

/-- `find_one({"_id": oid})`: first match in natural order. -/
def findDoc : Store → String → Option Doc
  | [], _ => none
  | d :: rest, oid => if matchesId oid d then some d else findDoc rest oid

/-- `find_one_and_update({"_id": oid}, {"$set": payload}, AFTER)`:
update the first matching document in place; return the post-update
document and the new collection contents. -/
def updateFirst (docs : Store) (oid : String) (payload : Doc) :
    Option Doc × Store :=
  match docs with
  | [] => (none, [])
  | d :: rest =>
    if matchesId oid d then
      let d2 := docSetMany d payload
      (some d2, d2 :: rest)
    else
      let r := updateFirst rest oid payload
      (r.1, d :: r.2)

/-- The projection of `update_order_status`'s `find_one_and_update`. -/
def statusProjKeys : List String :=
  ["_id", "customerName", "mobile", "address", "status", "total",
   "orderDate", "deliveryDate", "createdAt", "updatedAt", "items"]

/-- An inclusion projection: keep only the listed keys, in document order. -/
def projectTo (keys : List String) (d : Doc) : Doc :=
  d.filter (fun kv => keys.contains kv.1)

/-- The `$set` payload of `update_order_status`:
`{"status": status, "updatedAt": datetime.now()}`. -/
def statusSetPayload (now : DateTime) (status : String) : Doc :=
  [("status", .vStr status), ("updatedAt", .vDT now)]

/-- `update_order_status(order_id, status)`: the returned value and the new
collection contents. -/
def update_order_status (coll : Option Store) (now : DateTime)
    (order_id status : String) : Except String (Option Doc × Store) :=
  match coll with
  | none => .error "Database not connected: cannot update order status"
  | some docs =>
    match objectId? order_id with
    | none => .ok (none, docs)
    | some oid =>
      match updateFirst docs oid (statusSetPayload now status) with
      | (none, _) => .ok (none, docs)
      | (some d, docs2) => .ok (serialize_order (projectTo statusProjKeys d), docs2)

/-- The `field_map` dict literal of `edit_order`, in source order. -/
def field_map_table : List (String × String) :=
  [("customerName", "customerName"), ("contact", "mobile"), ("amount", "total"),
   ("status", "status"), ("address", "address"), ("mobile", "mobile"),
   ("total", "total"), ("deliveryDate", "deliveryDate"),
   ("preference", "preference"), ("items", "items")]

/-- `field_map.get(k)`: public alias to stored field name; `none` for
unrecognised keys (which the loop skips via `k not in field_map`). -/
def field_map (k : String) : Option String :=
  (field_map_table.find? (fun kv => kv.1 == k)).map (fun kv => kv.2)

/-- The `items` normalisation in `edit_order`: for a list value, keep only
mapping entries, each copied with `quantity` and `price` coerced; any other
value passes through unchanged. -/
def normItems : Value → Value
  | .vList xs => .vList (xs.filterMap (fun it =>
      match it with
      | .vDoc f => some (.vDoc (coerceField (coerceField f "quantity") "price"))
      | _ => none))
  | v => v

/-- The per-field value transformation of `edit_order`'s loop body:
`total` is float-coerced, `items` is normalised, all else verbatim. -/
def editValue (dest : String) (v : Value) : Value :=
  let v := if dest == "total" then coerceFloat v else v
  if dest == "items" then normItems v else v

/-- The `set_payload` built by `edit_order` from `updates`: alias-mapped,
filtered, transformed, assembled in a dict (later duplicates overwrite). -/
def buildSetPayload (updates : Doc) : Doc :=
  updates.foldl (fun acc kv =>
    match field_map kv.1 with
    | none => acc
    | some dest => docSet acc dest (editValue dest kv.2)) []

/-- The full `$set` payload of `edit_order` once it is non-empty:
`set_payload["updatedAt"] = datetime.now()` appended to the built payload. -/
def editSetPayload (updates : Doc) (now : DateTime) : Doc :=
  docSet (buildSetPayload updates) "updatedAt" (.vDT now)

/-- `edit_order(order_id, updates)`: the returned value and the new
collection contents. -/
def edit_order (coll : Option Store) (now : DateTime) (order_id : String)
    (updates : Doc) : Except String (Option Doc × Store) :=
  match coll with
  | none => .error "Database not connected: cannot edit order"
  | some docs =>
    match objectId? order_id with
    | none => .ok (none, docs)
    | some oid =>
      if (buildSetPayload updates).isEmpty then
        match findDoc docs oid with
        | none => .ok (none, docs)
        | some cur => .ok (serialize_order cur, docs)
      else
        match updateFirst docs oid (editSetPayload updates now) with
        | (none, _) => .ok (none, docs)
        | (some d, docs2) => .ok (serialize_order d, docs2)

/-! ### Dictionary lemmas -/

theorem docGet_docSet_self (d : Doc) (k : String) (v : Value) :
    docGet (docSet d k v) k = some v := by
  induction d with
  | nil => simp [docSet, docGet]
  | cons kv rest ih =>
    by_cases h : kv.1 = k
    · simp [docSet, docGet, h]
    · simp [docSet, docGet, h, ih]

theorem docGet_docSet_ne (d : Doc) (v : Value) {k k' : String} (h : k' ≠ k) :
    docGet (docSet d k v) k' = docGet d k' := by
  induction d with
  | nil => simp [docSet, docGet, Ne.symm h]
  | cons kv rest ih =>
    by_cases hk : kv.1 = k
    · simp [docSet, docGet, hk, Ne.symm h]
    · simp [docSet, docGet, hk, ih]

theorem docHasKey_docSet (d : Doc) (k k' : String) (v : Value) :
    docHasKey (docSet d k v) k' = (k == k' || docHasKey d k') := by
  induction d with
  | nil => simp [docSet, docHasKey]
  | cons kv rest ih =>
    by_cases hk : kv.1 = k
    · by_cases hk' : k = k' <;> simp [docSet, docHasKey, hk, hk', ih]
    · simp only [docSet, docHasKey]
      rw [if_neg (by simpa using hk)]
      simp [docHasKey, ih]
      cases kv.1 == k' <;> simp

theorem docHasKey_eq_isSome (d : Doc) (k : String) :
    docHasKey d k = (docGet d k).isSome := by
  induction d with
  | nil => simp [docHasKey, docGet]
  | cons kv rest ih =>
    by_cases h : kv.1 = k <;> simp [docHasKey, docGet, h, ih]

theorem docGet_docSetMany_notin (p : Doc) (d : Doc) (k : String)
    (h : docHasKey p k = false) :
    docGet (docSetMany d p) k = docGet d k := by
  induction p generalizing d with
  | nil => simp [docSetMany]
  | cons kv rest ih =>
    simp only [docHasKey, Bool.or_eq_false_iff, beq_eq_false_iff_ne] at h
    show docGet (docSetMany (docSet d kv.1 kv.2) rest) k = docGet d k
    rw [ih _ h.2, docGet_docSet_ne _ _ (fun e => h.1 e.symm)]

/-! ### Coercion lemmas -/

theorem coerceFloat_isNum (v : Value) : ∃ q, coerceFloat v = .vNum q := by
  unfold coerceFloat
  split
  · cases h : pyFloat v <;> simp
  · exact ⟨0, rfl⟩

theorem coerceFloat_vNum (q : ℚ) : coerceFloat (.vNum q) = .vNum q := by
  unfold coerceFloat truthy
  by_cases h : q = 0 <;> simp [h, pyFloat]

theorem coerceFloat_badStr {s : String} (h : parseFloat? s = none) :
    coerceFloat (.vStr s) = .vNum 0 := by
  unfold coerceFloat truthy pyFloat
  simp [h]

theorem coerceFloat_goodStr {s : String} {q : ℚ} (hs : ¬s.isEmpty)
    (h : parseFloat? s = some q) :
    coerceFloat (.vStr s) = .vNum q := by
  unfold coerceFloat truthy pyFloat
  simp [h, hs]

theorem docGet_coerceField_self (d : Doc) (k : String) :
    docGet (coerceField d k) k = (docGet d k).map coerceFloat := by
  unfold coerceField
  cases h : docGet d k <;> simp [h, docGet_docSet_self]

theorem docGet_coerceField_ne (d : Doc) {k k' : String} (h : k' ≠ k) :
    docGet (coerceField d k) k' = docGet d k' := by
  unfold coerceField
  cases hv : docGet d k
  · rfl
  · exact docGet_docSet_ne _ _ h

/-! ### Field-access lemmas for the `place_order` pipeline -/

theorem docGet_stampDates_ne (now : DateTime) (order : Doc) {k : String}
    (h1 : k ≠ "orderDate") (h2 : k ≠ "createdAt") :
    docGet (stampDates now order) k = docGet order k := by
  unfold stampDates
  rw [docGet_docSet_ne _ _ h2, docGet_docSet_ne _ _ h1]

theorem docGet_coerceItemsField_ne (o : Doc) {k : String} (h : k ≠ "items") :
    docGet (coerceItemsField o) k = docGet o k := by
  unfold coerceItemsField
  cases ho : docGet o "items" with
  | none => rfl
  | some v => cases v <;> first | rfl | exact docGet_docSet_ne _ _ h

theorem docGet_addIdIfMissing_ne (newId : String) (o : Doc) {k : String}
    (h : k ≠ "_id") :
    docGet (addIdIfMissing newId o) k = docGet o k := by
  unfold addIdIfMissing
  split
  · rfl
  · exact docGet_docSet_ne _ _ h

theorem docGet_preparedOrder_total (now : DateTime) (newId : String) (order : Doc) :
    docGet (preparedOrder now newId order) "total"
      = (docGet order "total").map coerceFloat := by
  unfold preparedOrder
  rw [docGet_addIdIfMissing_ne _ _ (by decide), docGet_coerceItemsField_ne _ (by decide),
    docGet_coerceField_self, docGet_stampDates_ne _ _ (by decide) (by decide)]

/-! ### Fixtures for witnesses and counterexamples -/

/-- Fixture instant 2026-10-12 09:05:03. -/
def fxNow : DateTime := ⟨2026, 10, 12, 9, 5, 3⟩

/-- Fixture `ObjectId` (24 hex characters). -/
def fxOid : String := "aabbccddeeff001122334455"

/-- Fixture stored order document. -/
def fxDoc : Doc :=
  [("_id", .vOid fxOid), ("customerName", .vStr "A"),
   ("orderDate", .vStr "2026-10-12"), ("createdAt", .vDT fxNow),
   ("total", .vNum 3)]

/-! ### Claims -/

/-- **C1**: when the database handle is absent (`order_collection is None`),
`get_orders` returns the empty sequence, `get_daily_summary` returns the
zeroed/empty summary shape (`total_orders=0`, `total_revenue=0`,
`total_items_sold=0`, `popular_sweets=[]`, `orders=[]`), and `place_order`,
`update_order_status` and `edit_order` each raise a store-unavailable
failure instead of silently no-opping. -/
theorem C1_handle_absent_degradation :
    get_orders none = [] ∧
    (∀ now, get_daily_summary none now =
      { total_orders := 0, total_revenue := 0, total_items_sold := 0,
        popular_sweets := [], orders := [] }) ∧
    (∀ now newId order, place_order none now newId order
        = .error "Database not connected: cannot place order") ∧
    (∀ now i s, update_order_status none now i s
        = .error "Database not connected: cannot update order status") ∧
    (∀ now i u, edit_order none now i u
        = .error "Database not connected: cannot edit order") :=
  ⟨rfl, fun _ => rfl, fun _ _ _ => rfl, fun _ _ _ => rfl, fun _ _ _ => rfl⟩

/-- **C2** counterexample: placing an order with **no** `total` key stores a
document that still has no `total` key — the claim's "defaulting to 0 …
when `total` is absent from the input" fails. -/
theorem C2_counterexample_absent_total :
    place_order (some []) fxNow fxOid []
      = .ok [[("orderDate", .vStr "2026-10-12"), ("createdAt", .vDT fxNow),
              ("_id", .vOid fxOid)]] ∧
    docGet [("orderDate", .vStr "2026-10-12"), ("createdAt", .vDT fxNow),
            ("_id", .vOid fxOid)] "total" = none :=
  ⟨rfl, rfl⟩

/-- **C2** (amended): `place_order` never raises once the handle is present
(malformed numeric input included); when `total` is **present** its stored
value is the float coercion of the input — always a float, and `0` when the
value is a non-numeric string; when `total` is **absent** from the input the
stored document keeps no `total` key (it is not defaulted to `0`). -/
theorem C2_total_coercion (docs : Store) (now : DateTime) (newId : String)
    (order : Doc) :
    place_order (some docs) now newId order
        = .ok (docs ++ [preparedOrder now newId order]) ∧
    (∀ v, docGet order "total" = some v →
      docGet (preparedOrder now newId order) "total" = some (coerceFloat v)) ∧
    (∀ v, ∃ q, coerceFloat v = Value.vNum q) ∧
    (∀ s, parseFloat? s = none → coerceFloat (.vStr s) = .vNum 0) ∧
    (docGet order "total" = none →
      docGet (preparedOrder now newId order) "total" = none) := by
  refine ⟨rfl, ?_, coerceFloat_isNum, fun s h => coerceFloat_badStr h, ?_⟩
  · intro v hv
    rw [docGet_preparedOrder_total, hv]
    rfl
  · intro hv
    rw [docGet_preparedOrder_total, hv]
    rfl

/-- Witness for `C2_total_coercion` at the non-numeric total `"oops"`. -/
theorem C2_total_coercion_witness :
    docGet (preparedOrder fxNow fxOid [("total", .vStr "oops")]) "total"
      = some (coerceFloat (.vStr "oops")) ∧
    coerceFloat (.vStr "oops") = .vNum 0 ∧
    docGet (preparedOrder fxNow fxOid [("customerName", .vStr "B")]) "total" = none :=
  ⟨(C2_total_coercion [] fxNow fxOid [("total", .vStr "oops")]).2.1 _ rfl,
   (C2_total_coercion [] fxNow fxOid [("total", .vStr "oops")]).2.2.2.1 "oops" rfl,
   (C2_total_coercion [] fxNow fxOid [("customerName", .vStr "B")]).2.2.2.2 rfl⟩

/-- `items` lookup through the `place_order` pipeline. -/
theorem docGet_preparedOrder_items (now : DateTime) (newId : String)
    (order : Doc) (xs : List Value)
    (h : docGet order "items" = some (.vList xs)) :
    docGet (preparedOrder now newId order) "items"
      = some (.vList (xs.map coerceItem)) := by
  unfold preparedOrder
  have hX : docGet (coerceField (stampDates now order) "total") "items"
      = some (.vList xs) := by
    rw [docGet_coerceField_ne _ (by decide),
      docGet_stampDates_ne _ _ (by decide) (by decide), h]
  rw [docGet_addIdIfMissing_ne _ _ (by decide)]
  unfold coerceItemsField
  simp only [hX]
  exact docGet_docSet_self ..

/-- Fixture line item with a missing `quantity` and a non-numeric `price`. -/
def c3Item : Doc := [("name", Value.vStr "ladoo"), ("price", Value.vStr "x")]

/-- **C3** counterexample: a line item with no `quantity` key keeps no
`quantity` key after `place_order` (its non-numeric `price` does store as
`0`) — the claim's "missing values defaulting to 0" fails. -/
theorem C3_counterexample_missing_quantity :
    place_order (some []) fxNow fxOid [("items", .vList [.vDoc c3Item])]
      = .ok [[("items", .vList [.vDoc [("name", .vStr "ladoo"), ("price", .vNum 0)]]),
              ("orderDate", .vStr "2026-10-12"), ("createdAt", .vDT fxNow),
              ("_id", .vOid fxOid)]] ∧
    docGet [("name", Value.vStr "ladoo"), ("price", Value.vNum 0)] "quantity" = none :=
  ⟨rfl, rfl⟩

/-- **C3** (amended): for every order whose `items` is a list, `place_order`
stores the list with each mapping item's `quantity` and `price` coerced to a
float **when present** — a present non-numeric value stores as `0`, each
field independently of the other — while a missing `quantity`/`price` stays
missing and every other item field is left untouched. -/
theorem C3_item_field_coercion (now : DateTime) (newId : String)
    (order : Doc) (xs : List Value) :
    (docGet order "items" = some (.vList xs) →
      docGet (preparedOrder now newId order) "items"
        = some (.vList (xs.map coerceItem))) ∧
    (∀ f v, docGet f "quantity" = some v →
      docGet (itemFields (coerceItem (.vDoc f))) "quantity" = some (coerceFloat v)) ∧
    (∀ f, docGet f "quantity" = none →
      docGet (itemFields (coerceItem (.vDoc f))) "quantity" = none) ∧
    (∀ f v, docGet f "price" = some v →
      docGet (itemFields (coerceItem (.vDoc f))) "price" = some (coerceFloat v)) ∧
    (∀ f, docGet f "price" = none →
      docGet (itemFields (coerceItem (.vDoc f))) "price" = none) ∧
    (∀ s, parseFloat? s = none → coerceFloat (.vStr s) = .vNum 0) ∧
    (∀ f k, k ≠ "quantity" → k ≠ "price" →
      docGet (itemFields (coerceItem (.vDoc f))) k = docGet f k) := by
  refine ⟨docGet_preparedOrder_items now newId order xs, ?_, ?_, ?_, ?_,
    fun s h => coerceFloat_badStr h, ?_⟩
  · intro f v hv
    show docGet (coerceField (coerceField f "quantity") "price") "quantity" = _
    rw [docGet_coerceField_ne _ (by decide), docGet_coerceField_self, hv]
    rfl
  · intro f hv
    show docGet (coerceField (coerceField f "quantity") "price") "quantity" = _
    rw [docGet_coerceField_ne _ (by decide), docGet_coerceField_self, hv]
    rfl
  · intro f v hv
    show docGet (coerceField (coerceField f "quantity") "price") "price" = _
    rw [docGet_coerceField_self, docGet_coerceField_ne _ (by decide), hv]
    rfl
  · intro f hv
    show docGet (coerceField (coerceField f "quantity") "price") "price" = _
    rw [docGet_coerceField_self, docGet_coerceField_ne _ (by decide), hv]
    rfl
  · intro f k hq hp
    show docGet (coerceField (coerceField f "quantity") "price") k = _
    rw [docGet_coerceField_ne _ hp, docGet_coerceField_ne _ hq]

/-- Witness for `C3_item_field_coercion` at a concrete item with a
non-numeric `quantity`, a numeric `price`, and a `name`. -/
theorem C3_item_field_coercion_witness :
    docGet (preparedOrder fxNow fxOid [("items", .vList [.vDoc c3Item])]) "items"
      = some (.vList ([Value.vDoc c3Item].map coerceItem)) ∧
    docGet (itemFields (coerceItem (.vDoc [("quantity", .vStr "bad"), ("price", .vNum 2)])))
      "quantity" = some (coerceFloat (.vStr "bad")) ∧
    coerceFloat (.vStr "bad") = .vNum 0 ∧
    docGet (itemFields (coerceItem (.vDoc c3Item))) "quantity" = none ∧
    docGet (itemFields (coerceItem (.vDoc c3Item))) "name" = some (.vStr "ladoo") := by
  have h := C3_item_field_coercion fxNow fxOid
    [("items", Value.vList [Value.vDoc c3Item])] [Value.vDoc c3Item]
  exact ⟨h.1 rfl, h.2.1 _ _ rfl, h.2.2.2.2.2.1 "bad" rfl, h.2.2.1 _ rfl,
    h.2.2.2.2.2.2 c3Item "name" (by decide) (by decide)⟩


/-! ### Payload lemmas for the mutation operations -/

theorem field_map_dest_ne_creation (k dest : String)
    (h : field_map k = some dest) :
    dest ≠ "orderDate" ∧ dest ≠ "createdAt" := by
  unfold field_map at h
  cases hf : List.find? (fun kv => kv.1 == k) field_map_table with
  | none => rw [hf] at h; cases h
  | some kv =>
    rw [hf] at h
    injection h with h2
    subst h2
    have hall : ∀ kv2 ∈ field_map_table,
        kv2.2 ≠ "orderDate" ∧ kv2.2 ≠ "createdAt" := by decide
    exact hall kv (List.mem_of_find?_eq_some hf)

theorem docHasKey_buildSetPayload_loop (u : Doc) (acc : Doc) (bad : String)
    (hmap : ∀ k dest, field_map k = some dest → dest ≠ bad)
    (hacc : docHasKey acc bad = false) :
    docHasKey (u.foldl (fun acc kv =>
      match field_map kv.1 with
      | none => acc
      | some dest => docSet acc dest (editValue dest kv.2)) acc) bad = false := by
  induction u generalizing acc with
  | nil => simpa using hacc
  | cons kv rest ih =>
    simp only [List.foldl_cons]
    cases hfm : field_map kv.1 with
    | none => exact ih acc hacc
    | some dest =>
      apply ih
      rw [docHasKey_docSet]
      simp [hacc, hmap kv.1 dest hfm]

theorem docHasKey_buildSetPayload (u : Doc) (bad : String)
    (hmap : ∀ k dest, field_map k = some dest → dest ≠ bad) :
    docHasKey (buildSetPayload u) bad = false := by
  unfold buildSetPayload
  exact docHasKey_buildSetPayload_loop u [] bad hmap rfl

theorem docHasKey_editSetPayload (u : Doc) (now : DateTime) (bad : String)
    (hbad : bad ≠ "updatedAt")
    (hmap : ∀ k dest, field_map k = some dest → dest ≠ bad) :
    docHasKey (editSetPayload u now) bad = false := by
  unfold editSetPayload
  rw [docHasKey_docSet]
  simp [docHasKey_buildSetPayload u bad hmap, Ne.symm hbad]

/-- **C10**: no `$set` payload built by `update_order_status` or
`edit_order` can contain the keys `orderDate` or `createdAt`, so applying
any such payload to a stored order leaves the order's `orderDate` and
`createdAt` fields unmodified. -/
theorem C10_creation_fields_immutable (updates : Doc) (now : DateTime)
    (status : String) (d : Doc) :
    docHasKey (statusSetPayload now status) "orderDate" = false ∧
    docHasKey (statusSetPayload now status) "createdAt" = false ∧
    docHasKey (editSetPayload updates now) "orderDate" = false ∧
    docHasKey (editSetPayload updates now) "createdAt" = false ∧
    docGet (docSetMany d (statusSetPayload now status)) "orderDate"
      = docGet d "orderDate" ∧
    docGet (docSetMany d (statusSetPayload now status)) "createdAt"
      = docGet d "createdAt" ∧
    docGet (docSetMany d (editSetPayload updates now)) "orderDate"
      = docGet d "orderDate" ∧
    docGet (docSetMany d (editSetPayload updates now)) "createdAt"
      = docGet d "createdAt" := by
  have ho : docHasKey (editSetPayload updates now) "orderDate" = false :=
    docHasKey_editSetPayload updates now _ (by decide)
      (fun k dest h => (field_map_dest_ne_creation k dest h).1)
  have hc : docHasKey (editSetPayload updates now) "createdAt" = false :=
    docHasKey_editSetPayload updates now _ (by decide)
      (fun k dest h => (field_map_dest_ne_creation k dest h).2)
  refine ⟨rfl, rfl, ho, hc, ?_, ?_, ?_, ?_⟩
  · exact docGet_docSetMany_notin _ _ _ (by rfl)
  · exact docGet_docSetMany_notin _ _ _ (by rfl)
  · exact docGet_docSetMany_notin _ _ _ ho
  · exact docGet_docSetMany_notin _ _ _ hc

/-! ### `update_order_status` not-found behaviour -/

theorem updateFirst_not_found (docs : Store) (oid : String) (p : Doc)
    (h : findDoc docs oid = none) :
    updateFirst docs oid p = (none, docs) := by
  induction docs with
  | nil => rfl
  | cons d rest ih =>
    unfold findDoc at h
    unfold updateFirst
    cases hm : matchesId oid d with
    | true => rw [hm] at h; simp at h
    | false =>
      rw [hm] at h
      simp only [Bool.false_eq_true, if_false] at h ⊢
      rw [ih h]

/-- **C7**: with the handle present, `update_order_status` returns absent
(`None`) without raising, both for an identifier string that `ObjectId`
cannot parse and for one that parses but matches no stored document; the
collection is untouched in both cases. -/
theorem C7_update_status_not_found (docs : Store) (now : DateTime)
    (order_id status : String) :
    (objectId? order_id = none →
      update_order_status (some docs) now order_id status = .ok (none, docs)) ∧
    (∀ oid, objectId? order_id = some oid → findDoc docs oid = none →
      update_order_status (some docs) now order_id status = .ok (none, docs)) := by
  constructor
  · intro h
    unfold update_order_status
    rw [h]
  · intro oid h hf
    unfold update_order_status
    rw [h]
    simp only [updateFirst_not_found docs oid _ hf]

/-- Witness for `C7_update_status_not_found`: the non-hex string `"nothex"`
fails to parse, and the valid id `fxOid` matches nothing in an empty
collection. -/
theorem C7_update_status_not_found_witness :
    update_order_status (some [fxDoc]) fxNow "nothex" "done" = .ok (none, [fxDoc]) ∧
    update_order_status (some []) fxNow fxOid "done" = .ok (none, []) :=
  ⟨(C7_update_status_not_found [fxDoc] fxNow "nothex" "done").1 (by decide),
   (C7_update_status_not_found [] fxNow fxOid "done").2 fxOid (by decide) rfl⟩

/-! ### `edit_order` payload and lookup lemmas -/

theorem buildSetPayload_unrecognized (u : Doc) :
    (∀ kv ∈ u, field_map kv.1 = none) → buildSetPayload u = [] := by
  unfold buildSetPayload
  induction u with
  | nil => intro _; rfl
  | cons kv rest ih =>
    intro h
    simp only [List.foldl_cons, h kv (List.mem_cons_self kv rest)]
    exact ih (fun kv2 hm => h kv2 (List.mem_cons_of_mem kv hm))

theorem findDoc_matches (docs : Store) (oid : String) (d : Doc)
    (h : findDoc docs oid = some d) : matchesId oid d = true := by
  induction docs with
  | nil => cases h
  | cons d0 rest ih =>
    unfold findDoc at h
    cases hm : matchesId oid d0 with
    | true =>
      rw [hm] at h
      simp only [if_pos rfl] at h
      injection h with h2
      subst h2
      exact hm
    | false =>
      rw [hm] at h
      simp only [Bool.false_eq_true, if_false] at h
      exact ih h

theorem serialize_order_isSome_of_matches (oid : String) (d : Doc)
    (h : matchesId oid d = true) : (serialize_order d).isSome = true := by
  cases d with
  | nil => simp [matchesId, docGet] at h
  | cons kv rest =>
    unfold serialize_order
    simp [List.isEmpty]

/-- **C6**: for a valid identifier that matches a stored document, when the
updates mapping yields no recognised field after alias mapping and
filtering (empty updates, or only unrecognised keys), `edit_order` returns
the current document normalised — present, not an error — and the
collection is left entirely unchanged (in particular `updatedAt` is never
set, as no `$set` is issued at all). -/
theorem C6_edit_no_recognized_fields (docs : Store) (now : DateTime)
    (order_id : String) (updates : Doc) (oid : String) (cur : Doc)
    (hp : objectId? order_id = some oid)
    (hu : ∀ kv ∈ updates, field_map kv.1 = none)
    (hf : findDoc docs oid = some cur) :
    edit_order (some docs) now order_id updates = .ok (serialize_order cur, docs) ∧
    (serialize_order cur).isSome = true := by
  have hb := buildSetPayload_unrecognized updates hu
  constructor
  · unfold edit_order
    rw [hp]
    simp only [hb, List.isEmpty_nil, if_true, hf]
  · exact serialize_order_isSome_of_matches oid cur (findDoc_matches docs oid cur hf)

/-- Witness for `C6_edit_no_recognized_fields`: an update containing only an
unrecognised key leaves the stored collection untouched and returns the
normalised current document. -/
theorem C6_edit_no_recognized_fields_witness :
    edit_order (some [fxDoc]) fxNow fxOid [("unknownField", .vNum 1)]
      = .ok (serialize_order fxDoc, [fxDoc]) ∧
    (serialize_order fxDoc).isSome = true :=
  C6_edit_no_recognized_fields [fxDoc] fxNow fxOid [("unknownField", .vNum 1)]
    fxOid fxDoc rfl
    (by intro kv h; rw [List.mem_singleton] at h; subst h; rfl) rfl

theorem updateFirst_append (pre post : Store) (cur : Doc) (oid : String) (p : Doc)
    (hpre : ∀ d ∈ pre, matchesId oid d = false)
    (hcur : matchesId oid cur = true) :
    updateFirst (pre ++ cur :: post) oid p
      = (some (docSetMany cur p), pre ++ docSetMany cur p :: post) := by
  induction pre with
  | nil =>
    simp only [List.nil_append]
    unfold updateFirst
    rw [hcur]
    simp
  | cons d rest ih =>
    have hd := hpre d (List.mem_cons_self d rest)
    simp only [List.cons_append]
    unfold updateFirst
    rw [hd]
    simp only [Bool.false_eq_true, if_false]
    rw [ih (fun d2 h2 => hpre d2 (List.mem_cons_of_mem d h2))]

theorem parseFloat_12_5 : parseFloat? "12.5" = some (25 / 2 : ℚ) := by
  have h : parseFloat? "12.5"
      = some ((1 : ℚ) * (((12 : ℕ) : ℚ) + ((5 : ℕ) : ℚ) / (10 : ℚ) ^ (1 : ℕ))) := rfl
  rw [h]
  congr 1
  norm_num

/-- The example update mapping of the C5 claim:
`{"contact": "555", "amount": "12.5"}`. -/
def c5Updates : Doc := [("contact", .vStr "555"), ("amount", .vStr "12.5")]

/-- The stored document after `edit_order` applies the C5 example update. -/
def c5Upd (cur : Doc) (now : DateTime) : Doc :=
  docSetMany cur (editSetPayload c5Updates now)

/-- **C5**: for a valid identifier matching a stored document, `edit_order`
maps public aliases to stored names (`contact`→`mobile`, `amount`→`total`),
passes the recognised fields through identically, silently drops every
unrecognised key, and coerces a resolved `total` to float; in particular
`edit_order(id, {"contact": "555", "amount": "12.5"})` stores
`mobile = "555"` and `total = 12.5` (a float), with no `contact` or
`amount` key in storage. -/
theorem C5_edit_alias_mapping (pre post : Store) (now : DateTime)
    (order_id oid : String) (cur : Doc)
    (hp : objectId? order_id = some oid)
    (hpre : ∀ d ∈ pre, matchesId oid d = false)
    (hcur : matchesId oid cur = true)
    (hc : docGet cur "contact" = none)
    (ha : docGet cur "amount" = none) :
    edit_order (some (pre ++ cur :: post)) now order_id c5Updates
      = .ok (serialize_order (c5Upd cur now), pre ++ c5Upd cur now :: post) ∧
    docGet (c5Upd cur now) "mobile" = some (.vStr "555") ∧
    docGet (c5Upd cur now) "total" = some (.vNum (25 / 2 : ℚ)) ∧
    docGet (c5Upd cur now) "contact" = none ∧
    docGet (c5Upd cur now) "amount" = none ∧
    (∀ k v, field_map k = none → buildSetPayload [(k, v)] = []) ∧
    (∀ v, buildSetPayload [("contact", v)] = [("mobile", v)]) ∧
    (∀ v, buildSetPayload [("amount", v)] = [("total", coerceFloat v)]) ∧
    (∀ v, buildSetPayload [("total", v)] = [("total", coerceFloat v)]) ∧
    (∀ v, buildSetPayload [("items", v)] = [("items", normItems v)]) ∧
    (∀ k v, (k == "customerName" || k == "status" || k == "address" ||
        k == "mobile" || k == "deliveryDate" || k == "preference") = true →
      buildSetPayload [(k, v)] = [(k, v)]) := by
  refine ⟨?_, ?_, ?_, ?_, ?_, ?_, fun v => rfl, fun v => rfl, fun v => rfl,
    fun v => rfl, ?_⟩
  · unfold edit_order
    rw [hp]
    simp only [show (buildSetPayload c5Updates).isEmpty = false from rfl,
      Bool.false_eq_true, if_false]
    rw [updateFirst_append pre post cur oid _ hpre hcur]
    rfl
  · show docGet (docSet (docSet (docSet cur "mobile" (.vStr "555")) "total"
      (coerceFloat (.vStr "12.5"))) "updatedAt" (.vDT now)) "mobile" = _
    rw [docGet_docSet_ne _ _ (by decide), docGet_docSet_ne _ _ (by decide),
      docGet_docSet_self]
  · show docGet (docSet (docSet (docSet cur "mobile" (.vStr "555")) "total"
      (coerceFloat (.vStr "12.5"))) "updatedAt" (.vDT now)) "total" = _
    rw [docGet_docSet_ne _ _ (by decide), docGet_docSet_self,
      coerceFloat_goodStr (by decide) parseFloat_12_5]
  · show docGet (docSetMany cur (editSetPayload c5Updates now)) "contact" = none
    rw [docGet_docSetMany_notin _ _ _ (by rfl), hc]
  · show docGet (docSetMany cur (editSetPayload c5Updates now)) "amount" = none
    rw [docGet_docSetMany_notin _ _ _ (by rfl), ha]
  · intro k v h
    unfold buildSetPayload
    simp only [List.foldl_cons, h, List.foldl_nil]
  · intro k v hk
    simp only [Bool.or_eq_true, beq_iff_eq] at hk
    rcases hk with ((((h | h) | h) | h) | h) | h <;> subst h <;> rfl

/-- Witness for `C5_edit_alias_mapping` at the fixture document (which has
no `contact`/`amount` keys) in a one-document collection. -/
theorem C5_edit_alias_mapping_witness :
    docGet (c5Upd fxDoc fxNow) "mobile" = some (.vStr "555") ∧
    docGet (c5Upd fxDoc fxNow) "total" = some (.vNum (25 / 2 : ℚ)) ∧
    docGet (c5Upd fxDoc fxNow) "contact" = none ∧
    docGet (c5Upd fxDoc fxNow) "amount" = none := by
  have h := C5_edit_alias_mapping [] [] fxNow fxOid fxOid fxDoc rfl
    (fun d hd => absurd hd (List.not_mem_nil d)) rfl rfl rfl
  exact ⟨h.2.1, h.2.2.1, h.2.2.2.1, h.2.2.2.2.1⟩

/-! ### Serialization lemmas -/

theorem docGet_renderDTField_ne (d : Doc) {kk k : String} (h : k ≠ kk) :
    docGet (renderDTField d kk) k = docGet d k := by
  unfold renderDTField
  cases hv : docGet d kk with
  | none => rfl
  | some v => cases v <;> first | rfl | exact docGet_docSet_ne _ _ h

theorem docGet_renderDTField_dt (d : Doc) (kk : String) (t : DateTime)
    (h : docGet d kk = some (.vDT t)) :
    docGet (renderDTField d kk) kk = some (.vStr t.fullStr) := by
  unfold renderDTField
  simp only [h]
  exact docGet_docSet_self ..

theorem docHasKey_dropId (d : Doc) : docHasKey (dropId d) "_id" = false := by
  induction d with
  | nil => rfl
  | cons kv rest ih =>
    unfold dropId at ih ⊢
    rw [List.filter_cons]
    cases hk : (kv.1 != "_id") with
    | true =>
      simp only [if_pos rfl, docHasKey, ih, Bool.or_false]
      simpa using hk
    | false =>
      simp only [Bool.false_eq_true, if_false]
      exact ih

/-- **C4** counterexample: for a stored document that carries an `_id`, the
order returned inside `get_daily_summary().orders` has **no** `_id` key —
the `{"_id": 0}` projection removed it before normalisation — whereas
`get_orders()` returns the same document with `_id` rendered as a string,
so the summary's orders are *not* normalised exactly as in `get_orders`. -/
theorem C4_counterexample_summary_drops_id :
    (get_daily_summary (some [fxDoc]) fxNow).orders
      = [some [("customerName", .vStr "A"), ("orderDate", .vStr "2026-10-12"),
               ("createdAt", .vStr "2026-10-12 09:05:03"), ("total", .vNum 3)]] ∧
    docGet [("customerName", Value.vStr "A"), ("orderDate", .vStr "2026-10-12"),
            ("createdAt", .vStr "2026-10-12 09:05:03"), ("total", .vNum 3)]
        "_id" = none ∧
    get_orders (some [fxDoc])
      = [some [("_id", .vStr fxOid), ("customerName", .vStr "A"),
               ("orderDate", .vStr "2026-10-12"),
               ("createdAt", .vStr "2026-10-12 09:05:03"), ("total", .vNum 3)]] :=
  ⟨rfl, rfl, rfl⟩

/-- **C4** (amended): every order in `get_daily_summary().orders` is
normalised by the same `_serialize_order` used by `get_orders`, but applied
to the `{"_id": 0}`-projected document, so it carries no identifier at all
(rather than a stringified one); datetime-typed `createdAt`/`updatedAt`
render as `"%Y-%m-%d %H:%M:%S"` strings and every other field — in
particular the string fields `orderDate`/`deliveryDate` — passes through
unchanged. -/
theorem C4_summary_orders_normalization (docs : Store) (now : DateTime) :
    (get_daily_summary (some docs) now).orders
      = (todayOrders docs now.dateStr).map serialize_order ∧
    get_orders (some docs) = (sortByCreatedDesc docs).map serialize_order ∧
    (∀ d, docHasKey (dropId d) "_id" = false) ∧
    (∀ d, d ∈ todayOrders docs now.dateStr → docHasKey d "_id" = false) ∧
    (∀ d, docGet d "_id" = none → d.isEmpty = false →
      serialize_order d = some (serialize_datetimes d)) ∧
    (∀ d t, docGet d "createdAt" = some (.vDT t) →
      docGet (serialize_datetimes d) "createdAt" = some (.vStr t.fullStr)) ∧
    (∀ d t, docGet d "updatedAt" = some (.vDT t) →
      docGet (serialize_datetimes d) "updatedAt" = some (.vStr t.fullStr)) ∧
    (∀ d k, k ≠ "createdAt" → k ≠ "updatedAt" →
      docGet (serialize_datetimes d) k = docGet d k) := by
  refine ⟨rfl, rfl, docHasKey_dropId, ?_, ?_, ?_, ?_, ?_⟩
  · intro d hd
    unfold todayOrders at hd
    rcases List.mem_map.mp hd with ⟨d0, _, hd0⟩
    rw [← hd0]
    exact docHasKey_dropId d0
  · intro d h1 h2
    unfold serialize_order
    rw [h2]
    simp only [Bool.false_eq_true, if_false, h1]
  · intro d t h
    unfold serialize_datetimes
    rw [docGet_renderDTField_ne _ (by decide)]
    exact docGet_renderDTField_dt _ _ _ h
  · intro d t h
    unfold serialize_datetimes
    exact docGet_renderDTField_dt _ _ _
      ((docGet_renderDTField_ne d (by decide)).trans h)
  · intro d k h1 h2
    unfold serialize_datetimes
    rw [docGet_renderDTField_ne _ h2, docGet_renderDTField_ne _ h1]

/-- Witness for `C4_summary_orders_normalization` at a document with
datetime `createdAt`/`updatedAt` and a string `orderDate`. -/
theorem C4_summary_orders_normalization_witness :
    serialize_order [("orderDate", .vStr "2026-10-12"), ("createdAt", .vDT fxNow)]
      = some (serialize_datetimes
          [("orderDate", .vStr "2026-10-12"), ("createdAt", .vDT fxNow)]) ∧
    docGet (serialize_datetimes
        [("orderDate", Value.vStr "2026-10-12"), ("createdAt", .vDT fxNow),
         ("updatedAt", .vDT fxNow)]) "createdAt"
      = some (.vStr fxNow.fullStr) ∧
    docGet (serialize_datetimes
        [("orderDate", Value.vStr "2026-10-12"), ("createdAt", .vDT fxNow),
         ("updatedAt", .vDT fxNow)]) "updatedAt"
      = some (.vStr fxNow.fullStr) ∧
    docGet (serialize_datetimes
        [("orderDate", Value.vStr "2026-10-12"), ("createdAt", .vDT fxNow)])
        "orderDate" = some (.vStr "2026-10-12") := by
  have h := C4_summary_orders_normalization [] fxNow
  exact ⟨h.2.2.2.2.1 _ rfl rfl, h.2.2.2.2.2.1 _ fxNow rfl,
    h.2.2.2.2.2.2.1 _ fxNow rfl,
    h.2.2.2.2.2.2.2 _ "orderDate" (by decide) (by decide)⟩

/-! ### Daily-summary claims -/

/-- **C8**: `get_daily_summary` draws every aggregate (count, revenue, items
sold, popular sweets) and its `orders` list from exactly the documents whose
stored `orderDate` string equals the current day's date string: membership
in the queried set is equivalent to that equality, and a store in which no
document carries today's date yields the all-zero summary. -/
theorem C8_daily_summary_today_only (docs : Store) (now : DateTime) :
    (get_daily_summary (some docs) now).orders
      = (todayOrders docs now.dateStr).map serialize_order ∧
    (get_daily_summary (some docs) now).total_orders
      = (todayOrders docs now.dateStr).length ∧
    (get_daily_summary (some docs) now).total_revenue
      = ((todayOrders docs now.dateStr).map revenueOf).sum ∧
    (get_daily_summary (some docs) now).total_items_sold
      = (dailyItemsFold (todayOrders docs now.dateStr)).1 ∧
    todayOrders docs now.dateStr
      = (sortByCreatedDesc (docs.filter (matchesOrderDate now.dateStr))).map dropId ∧
    (∀ d, matchesOrderDate now.dateStr d = true ↔
      docGet d "orderDate" = some (.vStr now.dateStr)) ∧
    (∀ d, d ∈ docs.filter (matchesOrderDate now.dateStr) ↔
      d ∈ docs ∧ docGet d "orderDate" = some (.vStr now.dateStr)) ∧
    ((∀ d ∈ docs, docGet d "orderDate" ≠ some (.vStr now.dateStr)) →
      get_daily_summary (some docs) now = emptySummary) := by
  have hiff : ∀ d, matchesOrderDate now.dateStr d = true ↔
      docGet d "orderDate" = some (.vStr now.dateStr) := by
    intro d
    unfold matchesOrderDate
    cases h : docGet d "orderDate" with
    | none => simp
    | some v => cases v <;> simp
  refine ⟨rfl, rfl, rfl, rfl, rfl, hiff, ?_, ?_⟩
  · intro d
    rw [List.mem_filter, hiff d]
  · intro hall
    have hfil : docs.filter (matchesOrderDate now.dateStr) = [] := by
      rw [List.filter_eq_nil_iff]
      exact fun d hd hm => hall d hd ((hiff d).mp hm)
    have htod : todayOrders docs now.dateStr = [] := by
      unfold todayOrders
      rw [hfil]
      rfl
    simp only [get_daily_summary, htod]
    rfl

/-- Witness for `C8_daily_summary_today_only`: a store holding only an
order dated yesterday (2026-10-11) produces the all-zero summary on
2026-10-12, and the membership test holds at the fixture document. -/
theorem C8_daily_summary_today_only_witness :
    get_daily_summary (some [[("orderDate", .vStr "2026-10-11"), ("total", .vNum 5)]])
        fxNow = emptySummary ∧
    (matchesOrderDate fxNow.dateStr fxDoc = true ↔
      docGet fxDoc "orderDate" = some (.vStr fxNow.dateStr)) := by
  refine ⟨(C8_daily_summary_today_only
      [[("orderDate", .vStr "2026-10-11"), ("total", .vNum 5)]] fxNow).2.2.2.2.2.2.2 ?_,
    (C8_daily_summary_today_only [fxDoc] fxNow).2.2.2.2.2.1 fxDoc⟩
  intro d hd
  rw [List.mem_singleton] at hd
  subst hd
  intro hc
  rw [show docGet [("orderDate", Value.vStr "2026-10-11"), ("total", Value.vNum 5)]
      "orderDate" = some (.vStr "2026-10-11") from rfl] at hc
  injection hc with h2
  injection h2 with h3
  exact absurd h3 (by decide)

/-- **C9**: for every store and instant, the `popular_sweets` list returned
by `get_daily_summary` is sorted by aggregated quantity in descending order
and has length at most 5. -/
theorem C9_popular_sweets_sorted_top5 (docs : Store) (now : DateTime) :
    List.Sorted (fun a b => b.quantity ≤ a.quantity)
      (get_daily_summary (some docs) now).popular_sweets ∧
    (get_daily_summary (some docs) now).popular_sweets.length ≤ 5 := by
  constructor
  · show List.Sorted (fun a b => b.quantity ≤ a.quantity)
      ((sortStatsDesc (dailyItemsFold (todayOrders docs now.dateStr)).2).take 5)
    haveI : IsTotal SweetStat (fun a b => b.quantity ≤ a.quantity) :=
      ⟨fun a b => le_total b.quantity a.quantity⟩
    haveI : IsTrans SweetStat (fun a b => b.quantity ≤ a.quantity) :=
      ⟨fun a b c hab hbc => le_trans hbc hab⟩
    exact List.Pairwise.sublist (List.take_sublist 5 _)
      (List.sorted_insertionSort _ _)
  · show ((sortStatsDesc (dailyItemsFold (todayOrders docs now.dateStr)).2).take 5).length ≤ 5
    exact List.length_take_le 5 _
